import Mathlib

/-!
Verification of the mdadm collector (`collector/mdadm.go`).

The Go code is shallowly embedded: Go strings become `List Char`, the two
compiled regular expressions (`statuslineRE`, `buildlineRE`) become
hand-compiled matchers with Go's leftmost-first / greedy semantics,
`strconv.ParseInt` becomes `parseInt64` on `Int` with the explicit
`2 ^ 63 - 1` bound, and every unchecked Go index access is modelled as an
explicit `panic` result so that panic-freedom is a provable statement.
-/

namespace Mdadm

/-- Go `strings.Split(s, sep)` for a one-character separator, on the
character list of the string.  Go semantics: `Split("", sep) = [""]`,
consecutive separators produce empty fields, a trailing separator produces a
trailing empty field. -/
def goSplit (sep : Char) : List Char → List (List Char)
  | [] => [[]]
  | c :: r =>
    match goSplit sep r with
    | [] => [[]]
    | h :: t => if c = sep then [] :: h :: t else (c :: h) :: t

/-- Go `strings.Contains(s, pat)`: some suffix of `s` starts with `pat`. -/
def goContains (s pat : List Char) : Bool :=
  s.tails.any (fun t => pat.isPrefixOf t)

/-- Go `strings.HasPrefix(s, pat)`. -/
def goHasPrefix (s pat : List Char) : Bool :=
  pat.isPrefixOf s

/-- Numeric value of a decimal digit string, most significant digit first
(the accumulator loop of `strconv.ParseInt` for base 10). -/
def natOfDigits (s : List Char) : Nat :=
  s.foldl (fun n c => n * 10 + (c.toNat - 48)) 0

/-- Largest value representable in Go's `int64`: `2 ^ 63 - 1`. -/
def int64Max : Nat := 2 ^ 63 - 1

/-- Go `strconv.Quote`-style quoting used inside `strconv.ParseInt` error
messages (the captured tokens are plain digit strings, so quoting is just
surrounding double quotes). -/
def quoteStr (s : List Char) : List Char :=
  '"' :: (s ++ ['"'])

/-- Models Go `strconv.ParseInt(s, 10, 64)` on the tokens this collector
feeds it: the capture groups of `\d+`, which are nonempty all-digit strings
(no sign, no base prefix).  On such a token the only possible failure is
`ErrRange`, when the value exceeds `2 ^ 63 - 1`; any other token is an
`ErrSyntax` failure. -/
def parseInt64 (s : List Char) : Except (List Char) Int :=
  if s ≠ [] ∧ s.all Char.isDigit = true then
    if natOfDigits s ≤ int64Max then
      .ok (Int.ofNat (natOfDigits s))
    else
      .error ("strconv.ParseInt: parsing ".data ++ quoteStr s ++ ": value out of range".data)
  else
    .error ("strconv.ParseInt: parsing ".data ++ quoteStr s ++ ": invalid syntax".data)

/-!
The status-line regular expression

`statuslineRE = (\d+) blocks .*\[(\d+)/(\d+)\] \[[U_]+\]`

compiled by hand.  `matchStatusTail` matches the suffix pattern
`\[(\d+)/(\d+)\] \[[U_]+\]` exactly at the start of its argument.  Each
`\d+` and `[U_]+` is taken maximal-munch, which is exact here because the
character following each repetition in the pattern (`/`, `]`) can never be a
member of the repeated class, so a backtracking engine would never shrink
the repetition.
-/

/-- Match `\[(\d+)/(\d+)\] \[[U_]+\]` at the start of `s`; on success
return the two captures and the remaining characters after the match. -/
def matchStatusTail (s : List Char) : Option (List Char × List Char × List Char) :=
  match s with
  | [] => none
  | c :: r =>
    if c = '[' then
      if r.takeWhile Char.isDigit = [] then none
      else
        match r.dropWhile Char.isDigit with
        | [] => none
        | c1 :: r2 =>
          if c1 = '/' then
            if r2.takeWhile Char.isDigit = [] then none
            else
              match r2.dropWhile Char.isDigit with
              | ']' :: ' ' :: '[' :: r4 =>
                if r4.takeWhile (fun c => c == 'U' || c == '_') = [] then none
                else
                  match r4.dropWhile (fun c => c == 'U' || c == '_') with
                  | ']' :: rest =>
                    some (r.takeWhile Char.isDigit, r2.takeWhile Char.isDigit, rest)
                  | _ => none
              | _ => none
          else none
    else none

/-- Greedy `.*` followed by `matchStatusTail`: Go regexp `.` matches any
character except a newline, and the greedy star tries the longest prefix
first, so the tail pattern is matched at the rightmost possible position. -/
def dotStarTail : List Char → Option (List Char × List Char × List Char)
  | [] => matchStatusTail []
  | c :: r =>
    if c = '\n' then matchStatusTail (c :: r)
    else
      match dotStarTail r with
      | some res => some res
      | none => matchStatusTail (c :: r)

/-- Match the whole status-line pattern anchored at the start of `s`.  On
success returns `(whole match, capture 1, capture 2, capture 3)`.  The
leading `(\d+)` is maximal-munch (exact: the pattern then requires a space,
and a shrunk digit run would be followed by a digit). -/
def matchStatusAt (s : List Char) : Option (List Char × List Char × List Char × List Char) :=
  if s.takeWhile Char.isDigit = [] then none
  else
    if goHasPrefix (s.dropWhile Char.isDigit) " blocks ".data then
      match dotStarTail ((s.dropWhile Char.isDigit).drop 8) with
      | some (d1, d2, rest) =>
        some (s.take (s.length - rest.length), s.takeWhile Char.isDigit, d1, d2)
      | none => none
    else none

/-- Leftmost match of `statuslineRE`: try every start position from the
left; Go regexp semantics ("leftmost-first") return the match starting as
early as possible. -/
def statuslineFind : List Char → Option (List Char × List Char × List Char × List Char)
  | [] => none
  | c :: r =>
    match matchStatusAt (c :: r) with
    | some res => some res
    | none => statuslineFind r

/-- Go `statuslineRE.FindStringSubmatch(s)`: `[]` models Go's `nil` (no
match); on a match Go always returns exactly `1 + 3` entries, the whole
match followed by the three captures. -/
def statuslineSubmatch (s : List Char) : List (List Char) :=
  match statuslineFind s with
  | none => []
  | some (w, a, b, c) => [w, a, b, c]

/-!
The build-line regular expression

`buildlineRE = \((\d+)/\d+\)` compiled by hand; one capture group.
-/

/-- Match `\((\d+)/\d+\)` at the start of `s`; on success return the whole
match and the single capture. -/
def matchBuildAt (s : List Char) : Option (List Char × List Char) :=
  match s with
  | [] => none
  | c :: r =>
    if c = '(' then
      if r.takeWhile Char.isDigit = [] then none
      else
        match r.dropWhile Char.isDigit with
        | [] => none
        | c1 :: r2 =>
          if c1 = '/' then
            if r2.takeWhile Char.isDigit = [] then none
            else
              match r2.dropWhile Char.isDigit with
              | ')' :: rest => some (s.take (s.length - rest.length), r.takeWhile Char.isDigit)
              | _ => none
          else none
    else none

/-- Leftmost match of `buildlineRE`. -/
def buildlineFind : List Char → Option (List Char × List Char)
  | [] => none
  | c :: r =>
    match matchBuildAt (c :: r) with
    | some res => some res
    | none => buildlineFind r

/-- Go `buildlineRE.FindStringSubmatch(s)`: `[]` models `nil`; on a match
exactly `1 + 1` entries are returned. -/
def buildlineSubmatch (s : List Char) : List (List Char) :=
  match buildlineFind s with
  | none => []
  | some (w, a) => [w, a]

/-!
The evaluation functions and the parser
-/

/-- Result of a Go function returning `(value, error)`; `panic` models a
run-time panic (out-of-range index), which the spec requires to be
impossible. -/
inductive GoRes (α : Type) where
  | ok : α → GoRes α
  | error : List Char → GoRes α
  | panic : List Char → GoRes α
deriving Repr, DecidableEq

/-- Whether a `GoRes` is a modelled run-time panic. -/
def GoRes.isPanic {α : Type} : GoRes α → Bool
  | .panic _ => true
  | _ => false

/-- Go `evalStatusline`: returns `(active, total, size)` on success.  The
length checks mirror lines 42–48 of the source (`len(matches) < 3+1`,
`len(matches) > 3+1`); the unchecked accesses `matches[1..3]` are modelled
with a panic fallback. -/
def evalStatusline (statusline : List Char) : GoRes (Int × Int × Int) :=
  let ms := statuslineSubmatch statusline
  if ms.length < 3 + 1 then
    .error ("too few matches found in statusline: ".data ++ statusline)
  else if ms.length > 3 + 1 then
    .error ("too many matches found in statusline: ".data ++ statusline)
  else
    match ms.get? 1 with
    | none => .panic "index out of range".data
    | some m1 =>
      match parseInt64 m1 with
      | .error e => .error (e ++ " in statusline: ".data ++ statusline)
      | .ok size =>
        match ms.get? 2 with
        | none => .panic "index out of range".data
        | some m2 =>
          match parseInt64 m2 with
          | .error e => .error (e ++ " in statusline: ".data ++ statusline)
          | .ok total =>
            match ms.get? 3 with
            | none => .panic "index out of range".data
            | some m3 =>
              match parseInt64 m3 with
              | .error e => .error (e ++ " in statusline: ".data ++ statusline)
              | .ok active => .ok (active, total, size)

/-- Go `evalBuildline`: the number of already-synced blocks from the sync
line. -/
def evalBuildline (buildline : List Char) : GoRes Int :=
  let ms := buildlineSubmatch buildline
  if ms.length < 1 + 1 then
    .error ("too few matches found in buildline: ".data ++ buildline)
  else if ms.length > 1 + 1 then
    .error ("too many matches found in buildline: ".data ++ buildline)
  else
    match ms.get? 1 with
    | none => .panic "index out of range".data
    | some m1 =>
      match parseInt64 m1 with
      | .error e => .error (e ++ " in buildline: ".data ++ buildline)
      | .ok syncedSize => .ok syncedSize

/-- The `mdStatus` struct of the source, field for field. -/
structure mdStatus where
  mdName : List Char
  isActive : Bool
  disksActive : Int
  disksTotal : Int
  blocksTotal : Int
  blocksSynced : Int
deriving Repr, DecidableEq

/-- The package-level `statusfile` variable. -/
def statusfile : List Char := "/proc/mdstat".data

/-- Result of `parseMdstat`.  Go returns `([]mdStatus, error)`: `err`
carries the partial slice accumulated before the error, exactly as the Go
code returns `mdStates` alongside the error value. -/
inductive ParseResult where
  | ok : List mdStatus → ParseResult
  | err : List mdStatus → List Char → ParseResult
  | panic : List Char → ParseResult
deriving Repr, DecidableEq

/-- Whether a `ParseResult` is a modelled run-time panic. -/
def ParseResult.isPanic : ParseResult → Bool
  | .panic _ => true
  | _ => false

/-- The `for i, l := range lines` loop of `parseMdstat`, lines 107–164 of
the source, as structural recursion on the suffix of lines still to visit.
If `i` is the index of the head line in the full list, then Go's
`lines[i+k]` is `rest.get? (k-1)` and Go's guard `len(lines) <= i+3` is
`rest.length < 3`.  Every unchecked Go index (`l[0]`, `mainLine[0]`,
`mainLine[2]`, `lines[i+1]`, `lines[i+2]`, `lines[j]`) is modelled with an
explicit panic fallback.  Note the Go loop advances one line at a time even
after consuming a device section by lookahead; it does not jump past the
consumed lines. -/
def parseMdstatLoop : List (List Char) → List mdStatus → ParseResult
  | [], mdStates => .ok mdStates
  | l :: rest, mdStates =>
    if l = [] then
      -- Skip entirely empty lines.
      parseMdstatLoop rest mdStates
    else
      match l with
      | [] => .panic "index out of range".data
      | c0 :: _ =>
        if c0 = ' ' then
          -- Those lines are not the beginning of a md-section.
          parseMdstatLoop rest mdStates
        else if goHasPrefix l "Personalities".data || goHasPrefix l "unused".data then
          -- We are not interested in lines with general info.
          parseMdstatLoop rest mdStates
        else
          let mainLine := goSplit ' ' l
          if mainLine.length < 3 then
            .err mdStates ("error parsing mdline: ".data ++ l)
          else
            match mainLine.get? 0, mainLine.get? 2 with
            | some currentMD, some tok2 =>
              let isActive := tok2 == "active".data
              if rest.length < 3 then
                .err mdStates ("error parsing ".data ++ statusfile ++ ": entry for ".data ++
                  currentMD ++ " has fewer lines than expected".data)
              else
                match rest.get? 0 with
                | none => .panic "index out of range".data
                | some sl =>
                  match evalStatusline sl with
                  | .panic p => .panic p
                  | .error e =>
                    .err mdStates ("error parsing ".data ++ statusfile ++ ": ".data ++ e)
                  | .ok (active, total, size) =>
                    match rest.get? 1 with
                    | none => .panic "index out of range".data
                    | some l2 =>
                      let jr := if goContains l2 "bitmap".data then 2 else 1
                      match rest.get? jr with
                      | none => .panic "index out of range".data
                      | some jl =>
                        if goContains jl "recovery".data || goContains jl "resync".data then
                          match evalBuildline jl with
                          | .panic p => .panic p
                          | .error e =>
                            .err mdStates ("error parsing ".data ++ statusfile ++ ": ".data ++ e)
                          | .ok syncedBlocks =>
                            parseMdstatLoop rest
                              (mdStates ++ [⟨currentMD, isActive, active, total, size, syncedBlocks⟩])
                        else
                          parseMdstatLoop rest
                            (mdStates ++ [⟨currentMD, isActive, active, total, size, size⟩])
            | _, _ => .panic "index out of range".data

/-- Outcome of `ioutil.ReadFile(statusfile)` inside `parseMdstat`
(external I/O collaborator). -/
inductive ReadOutcome where
  | readError : List Char → ReadOutcome
  | content : List Char → ReadOutcome

/-- Go `parseMdstat`, given the outcome of the file read: a read failure is
wrapped as `error parsing /proc/mdstat: ...`; otherwise the content is
split on newlines and scanned by the loop.  (The capacity pre-sizing
`len(lines)/3` of the Go code only affects allocation, not the result.) -/
def parseMdstat (ro : ReadOutcome) : ParseResult :=
  match ro with
  | .readError e => .err [] ("error parsing ".data ++ statusfile ++ ": ".data ++ e)
  | .content c => parseMdstatLoop (goSplit '\n' c) []

/-!
The metrics adapter (`Update`)
-/

/-- The five package-level `prometheus.Desc` values. -/
inductive MDDesc where
  | isActiveDesc
  | disksActiveDesc
  | disksTotalDesc
  | blocksTotalDesc
  | blocksSyncedDesc
deriving Repr, DecidableEq

/-- Metric kind; every metric of this collector is a gauge. -/
inductive MetricKind where
  | gauge
deriving Repr, DecidableEq

/-- One observation sent on the channel by `Update`: a descriptor, the
gauge kind, the numeric value and the single `device` label value.  (Go
converts the value to `float64`; the conversion itself is not modelled, no
claim depends on it.) -/
structure Metric where
  desc : MDDesc
  kind : MetricKind
  value : Int
  label : List Char
deriving Repr, DecidableEq

/-- The five `MustNewConstMetric` sends of the `Update` loop body, in
order, for one device. -/
def metricsForDevice (mds : mdStatus) : List Metric :=
  [⟨.isActiveDesc, .gauge, if mds.isActive then 1 else 0, mds.mdName⟩,
   ⟨.disksActiveDesc, .gauge, mds.disksActive, mds.mdName⟩,
   ⟨.disksTotalDesc, .gauge, mds.disksTotal, mds.mdName⟩,
   ⟨.blocksTotalDesc, .gauge, mds.blocksTotal, mds.mdName⟩,
   ⟨.blocksSyncedDesc, .gauge, mds.blocksSynced, mds.mdName⟩]

/-- State of the status file as seen by `Update`: `os.Stat` reports
not-exist, `os.Stat` fails otherwise, or the file is readable with the
given read outcome. -/
inductive MdstatFile where
  | absent
  | statError : List Char → MdstatFile
  | readable : ReadOutcome → MdstatFile

/-- Result of one `Update` pass: the metrics emitted on the channel, in
order, and the returned error value. -/
inductive UpdateResult where
  | done : List Metric → Option (List Char) → UpdateResult
  | panic : List Char → UpdateResult
deriving Repr, DecidableEq

/-- Whether an `UpdateResult` is a modelled run-time panic. -/
def UpdateResult.isPanic : UpdateResult → Bool
  | .panic _ => true
  | _ => false

/-- Go `(*mdadmCollector).Update`: a non-existent status file is not an
error and emits nothing; any other stat failure is returned as the error;
a parse failure is wrapped (`error parsing /proc/mdstat: ...`) and returned
with nothing emitted; on success the loop emits five gauges per parsed
device. -/
def Update (f : MdstatFile) : UpdateResult :=
  match f with
  | .absent => .done [] none
  | .statError e => .done [] (some e)
  | .readable ro =>
    match parseMdstat ro with
    | .panic p => .panic p
    | .err _ e => .done [] (some ("error parsing ".data ++ statusfile ++ ": ".data ++ e))
    | .ok mdstate => .done (mdstate.flatMap metricsForDevice) none

end Mdadm

namespace Mdadm

/-!
Derived notions used by the statements
-/

/-- A line the scan treats as the beginning of a md-section: nonempty,
not starting with a space, and without the `Personalities`/`unused`
prefixes (the three skip tests of the loop, in order). -/
def isHeaderLine (l : List Char) : Bool :=
  match l with
  | [] => false
  | c :: _ =>
    !(c == ' ') && !(goHasPrefix l "Personalities".data) && !(goHasPrefix l "unused".data)

/-- First space-separated token of a line, Go `strings.Split(l, " ")[0]`. -/
def firstToken (l : List Char) : List Char :=
  (goSplit ' ' l).headD []

/-- First tokens of the header lines, in the order the header lines occur
in the input. -/
def headerNames : List (List Char) → List (List Char)
  | [] => []
  | l :: rest => (if isHeaderLine l then [firstToken l] else []) ++ headerNames rest

/-- Indices of the header lines, the first line carrying index `i`. -/
def headerIdxFrom : List (List Char) → Nat → List Nat
  | [], _ => []
  | l :: rest, i => (if isHeaderLine l then [i] else []) ++ headerIdxFrom rest (i + 1)

/-- Indices of the header lines of the line list. -/
def headerIndices (lines : List (List Char)) : List Nat :=
  headerIdxFrom lines 0

/-- The device section rooted at header index `k` explains record `r`:
the header's first token is `r`'s name, the following status line
evaluates to `r`'s disk and block numbers, and `r.blocksSynced` obeys the
sync rule on the relevant line after the status line (the line two past
the header, or three past it when the line two past contains "bitmap"):
the single build-line capture when that line mentions recovery or resync,
and `r.blocksTotal` otherwise. -/
def sectionFor (lines : List (List Char)) (k : Nat) (r : mdStatus) : Prop :=
  firstToken (lines.getD k []) = r.mdName ∧
  evalStatusline (lines.getD (k + 1) []) = .ok (r.disksActive, r.disksTotal, r.blocksTotal) ∧
  (let j := if goContains (lines.getD (k + 2) []) "bitmap".data then k + 3 else k + 2
   let jl := lines.getD j []
   if goContains jl "recovery".data || goContains jl "resync".data then
     evalBuildline jl = .ok r.blocksSynced
   else r.blocksSynced = r.blocksTotal)

/-!
Helper lemmas about the matchers
-/

/-- Splitting a successful `List.drop` at a cons cell: the head is the
element at that index and the tail is the next drop. -/
theorem drop_eq_cons_split {α : Type} :
    ∀ (full : List α) (i : Nat) (l : α) (rest : List α),
      full.drop i = l :: rest → full.get? i = some l ∧ full.drop (i + 1) = rest := by
  intro full
  induction full with
  | nil =>
    intro i l rest h
    simp [List.drop_nil] at h
  | cons a t ih =>
    intro i l rest h
    cases i with
    | zero =>
      simp only [List.drop_zero] at h
      cases h
      exact ⟨rfl, by simp⟩
    | succ n =>
      simp only [List.drop_succ_cons] at h
      have := ih n l rest h
      exact ⟨by simpa using this.1, by simpa [List.drop_succ_cons] using this.2⟩

/-- Captures of the status-tail pattern are nonempty digit strings. -/
theorem matchStatusTail_digits :
    ∀ {s d1 d2 rest : List Char}, matchStatusTail s = some (d1, d2, rest) →
      (d1 ≠ [] ∧ d1.all Char.isDigit = true) ∧ (d2 ≠ [] ∧ d2.all Char.isDigit = true) := by
  intro s d1 d2 rest h
  unfold matchStatusTail at h
  repeat' split at h
  all_goals first
    | exact Option.noConfusion h
    | (simp only [Option.some.injEq, Prod.mk.injEq] at h
       obtain ⟨h1, h2, h3⟩ := h
       subst h1; subst h2
       refine ⟨⟨?_, List.all_takeWhile⟩, ?_, List.all_takeWhile⟩ <;> assumption)

/-- Captures of `.*` followed by the status tail are nonempty digit
strings. -/
theorem dotStarTail_digits :
    ∀ {s d1 d2 rest : List Char}, dotStarTail s = some (d1, d2, rest) →
      (d1 ≠ [] ∧ d1.all Char.isDigit = true) ∧ (d2 ≠ [] ∧ d2.all Char.isDigit = true) := by
  intro s
  induction s with
  | nil =>
    intro d1 d2 rest h
    exact matchStatusTail_digits (by simpa [dotStarTail] using h)
  | cons c r ih =>
    intro d1 d2 rest h
    unfold dotStarTail at h
    split at h
    · exact matchStatusTail_digits h
    · split at h
      next heq => exact ih (by simpa [heq] using h)
      next => exact matchStatusTail_digits h

/-- Captures of the anchored status-line pattern are nonempty digit
strings. -/
theorem matchStatusAt_digits :
    ∀ {s w a b c : List Char}, matchStatusAt s = some (w, a, b, c) →
      (a ≠ [] ∧ a.all Char.isDigit = true) ∧ (b ≠ [] ∧ b.all Char.isDigit = true) ∧
        (c ≠ [] ∧ c.all Char.isDigit = true) := by
  intro s w a b c h
  unfold matchStatusAt at h
  split at h
  · exact Option.noConfusion h
  next hne =>
    split at h
    · split at h
      next d1 d2 rest heq =>
        simp only [Option.some.injEq, Prod.mk.injEq] at h
        obtain ⟨hw, ha, hb, hc⟩ := h
        subst ha; subst hb; subst hc
        exact ⟨⟨hne, List.all_takeWhile⟩, (dotStarTail_digits heq).1, (dotStarTail_digits heq).2⟩
      · exact Option.noConfusion h
    · exact Option.noConfusion h

/-- Captures of a leftmost status-line match are nonempty digit strings. -/
theorem statuslineFind_digits :
    ∀ {s w a b c : List Char}, statuslineFind s = some (w, a, b, c) →
      (a ≠ [] ∧ a.all Char.isDigit = true) ∧ (b ≠ [] ∧ b.all Char.isDigit = true) ∧
        (c ≠ [] ∧ c.all Char.isDigit = true) := by
  intro s
  induction s with
  | nil =>
    intro w a b c h
    simp [statuslineFind] at h
  | cons c0 r ih =>
    intro w a b c h
    unfold statuslineFind at h
    split at h
    next heq => exact matchStatusAt_digits (heq.trans h)
    next => exact ih h

/-- Go `statuslineRE.FindStringSubmatch` returns either no match or
exactly `1 + 3` entries, the three captures being nonempty digit strings.
The regular expression has exactly three capture groups, so no other
result length is possible: the `len(matches) > 3+1` branch of
`evalStatusline` is unreachable. -/
theorem statuslineSubmatch_cases (s : List Char) :
    statuslineSubmatch s = [] ∨
      ∃ w a b c, statuslineSubmatch s = [w, a, b, c] ∧
        (a ≠ [] ∧ a.all Char.isDigit = true) ∧ (b ≠ [] ∧ b.all Char.isDigit = true) ∧
          (c ≠ [] ∧ c.all Char.isDigit = true) := by
  unfold statuslineSubmatch
  cases h : statuslineFind s with
  | none => exact Or.inl rfl
  | some res =>
    obtain ⟨w, a, b, c⟩ := res
    exact Or.inr ⟨w, a, b, c, rfl, statuslineFind_digits h⟩

/-- The capture of the anchored build-line pattern is a nonempty digit
string. -/
theorem matchBuildAt_digits :
    ∀ {s w a : List Char}, matchBuildAt s = some (w, a) →
      a ≠ [] ∧ a.all Char.isDigit = true := by
  intro s w a h
  unfold matchBuildAt at h
  repeat' split at h
  all_goals first
    | exact Option.noConfusion h
    | (simp only [Option.some.injEq, Prod.mk.injEq] at h
       obtain ⟨h1, h2⟩ := h
       subst h2
       exact ⟨by assumption, List.all_takeWhile⟩)

/-- The capture of a leftmost build-line match is a nonempty digit
string. -/
theorem buildlineFind_digits :
    ∀ {s w a : List Char}, buildlineFind s = some (w, a) →
      a ≠ [] ∧ a.all Char.isDigit = true := by
  intro s
  induction s with
  | nil =>
    intro w a h
    simp [buildlineFind] at h
  | cons c0 r ih =>
    intro w a h
    unfold buildlineFind at h
    split at h
    next heq => exact matchBuildAt_digits (heq.trans h)
    next => exact ih h

/-- Go `buildlineRE.FindStringSubmatch` returns either no match or exactly
`1 + 1` entries, the capture being a nonempty digit string; the
`len(matches) > 1+1` branch of `evalBuildline` is unreachable. -/
theorem buildlineSubmatch_cases (s : List Char) :
    buildlineSubmatch s = [] ∨
      ∃ w a, buildlineSubmatch s = [w, a] ∧ a ≠ [] ∧ a.all Char.isDigit = true := by
  unfold buildlineSubmatch
  cases h : buildlineFind s with
  | none => exact Or.inl rfl
  | some res =>
    obtain ⟨w, a⟩ := res
    exact Or.inr ⟨w, a, rfl, buildlineFind_digits h⟩

/-!
Helper lemmas about the evaluation functions
-/

/-- Conversion lemma: `parseInt64` succeeds exactly on in-range digit strings. -/
theorem parseInt64_ok_digits {s : List Char} (h1 : s ≠ []) (h2 : s.all Char.isDigit = true)
    (h3 : natOfDigits s ≤ int64Max) :
    parseInt64 s = .ok (Int.ofNat (natOfDigits s)) := by
  simp [parseInt64, h1, h2, h3]

/-- Conversion lemma: `parseInt64` fails with a range error on an out-of-range digit
string. -/
theorem parseInt64_range {s : List Char} (h1 : s ≠ []) (h2 : s.all Char.isDigit = true)
    (h3 : int64Max < natOfDigits s) :
    parseInt64 s =
      .error ("strconv.ParseInt: parsing ".data ++ quoteStr s ++ ": value out of range".data) := by
  simp [parseInt64, h1, h2, Nat.not_le.mpr h3]

/-- Evaluation of `evalStatusline` on an unmatched line: the "too few matches" error. -/
theorem evalStatusline_nomatch {l : List Char} (h : statuslineSubmatch l = []) :
    evalStatusline l = .error ("too few matches found in statusline: ".data ++ l) := by
  simp [evalStatusline, h]

/-- Evaluation of `evalStatusline` on a matched line whose three captures convert:
the result is `(active, total, size)` built from the third, second and
first capture, in that order. -/
theorem evalStatusline_ok {l w a b c : List Char} {na nb nc : Int}
    (h : statuslineSubmatch l = [w, a, b, c])
    (ha : parseInt64 a = .ok na) (hb : parseInt64 b = .ok nb) (hc : parseInt64 c = .ok nc) :
    evalStatusline l = .ok (nc, nb, na) := by
  simp [evalStatusline, h, ha, hb, hc]

/-- Error case: `evalStatusline` propagates a conversion failure of the first capture,
appending the offending line. -/
theorem evalStatusline_err1 {l w a b c e : List Char}
    (h : statuslineSubmatch l = [w, a, b, c]) (ha : parseInt64 a = .error e) :
    evalStatusline l = .error (e ++ " in statusline: ".data ++ l) := by
  simp [evalStatusline, h, ha]

/-- Safety: `evalStatusline` never panics: the submatch list always has length 0
or 4, so the guarded accesses `matches[1..3]` are in range. -/
theorem evalStatusline_no_panic (l : List Char) : (evalStatusline l).isPanic = false := by
  rcases statuslineSubmatch_cases l with h | ⟨w, a, b, c, h, _⟩
  · simp [evalStatusline, h, GoRes.isPanic]
  · cases hA : parseInt64 a with
    | error e => simp [evalStatusline, h, hA, GoRes.isPanic]
    | ok na =>
      cases hB : parseInt64 b with
      | error e => simp [evalStatusline, h, hA, hB, GoRes.isPanic]
      | ok nb =>
        cases hC : parseInt64 c with
        | error e => simp [evalStatusline, h, hA, hB, hC, GoRes.isPanic]
        | ok nc => simp [evalStatusline, h, hA, hB, hC, GoRes.isPanic]

/-- Evaluation of `evalBuildline` on an unmatched line: the "too few matches" error. -/
theorem evalBuildline_nomatch {l : List Char} (h : buildlineSubmatch l = []) :
    evalBuildline l = .error ("too few matches found in buildline: ".data ++ l) := by
  simp [evalBuildline, h]

/-- Evaluation of `evalBuildline` on a matched line whose capture converts. -/
theorem evalBuildline_ok {l w a : List Char} {n : Int}
    (h : buildlineSubmatch l = [w, a]) (ha : parseInt64 a = .ok n) :
    evalBuildline l = .ok n := by
  simp [evalBuildline, h, ha]

/-- A successful `evalBuildline` comes from the single capture of the
build-line pattern. -/
theorem evalBuildline_ok_inv {l : List Char} {n : Int} (h : evalBuildline l = .ok n) :
    ∃ w a, buildlineSubmatch l = [w, a] ∧ parseInt64 a = .ok n := by
  rcases buildlineSubmatch_cases l with hs | ⟨w, a, hs, _⟩
  · simp [evalBuildline, hs] at h
  · cases hA : parseInt64 a with
    | error e => simp [evalBuildline, hs, hA] at h
    | ok m =>
      have hm : m = n := by simpa [evalBuildline, hs, hA] using h
      exact ⟨w, a, hs, by rw [hA, hm]⟩

/-- Safety: `evalBuildline` never panics. -/
theorem evalBuildline_no_panic (l : List Char) : (evalBuildline l).isPanic = false := by
  rcases buildlineSubmatch_cases l with h | ⟨w, a, h, _⟩
  · simp [evalBuildline, h, GoRes.isPanic]
  · cases hA : parseInt64 a with
    | error e => simp [evalBuildline, h, hA, GoRes.isPanic]
    | ok m => simp [evalBuildline, h, hA, GoRes.isPanic]

/-!
Step lemmas for the scan loop
-/

/-- A header line decomposes into a nonspace first character and carries
no skip prefix. -/
theorem isHeaderLine_spec {l : List Char} (h : isHeaderLine l = true) :
    ∃ c0 cs, l = c0 :: cs ∧ ¬c0 = ' ' ∧ goHasPrefix l "Personalities".data = false ∧
      goHasPrefix l "unused".data = false := by
  cases l with
  | nil => simp [isHeaderLine] at h
  | cons c0 cs =>
    simp only [isHeaderLine, Bool.and_eq_true, Bool.not_eq_true'] at h
    refine ⟨c0, cs, rfl, ?_, h.1.2, h.2⟩
    intro hc
    simp [hc] at h

/-- The loop skips an empty line. -/
theorem parseLoop_skip_empty (rest : List (List Char)) (acc : List mdStatus) :
    parseMdstatLoop ([] :: rest) acc = parseMdstatLoop rest acc := by
  simp [parseMdstatLoop]

/-- The loop skips a line starting with a space. -/
theorem parseLoop_skip_space (cs : List Char) (rest : List (List Char)) (acc : List mdStatus) :
    parseMdstatLoop ((' ' :: cs) :: rest) acc = parseMdstatLoop rest acc := by
  simp [parseMdstatLoop]

/-- The loop skips a `Personalities`/`unused` line. -/
theorem parseLoop_skip_prefixed {c0 : Char} {cs : List Char} (hc : ¬c0 = ' ')
    (hp : (goHasPrefix (c0 :: cs) "Personalities".data || goHasPrefix (c0 :: cs) "unused".data) = true)
    (rest : List (List Char)) (acc : List mdStatus) :
    parseMdstatLoop ((c0 :: cs) :: rest) acc = parseMdstatLoop rest acc := by
  simp [parseMdstatLoop, hc, hp]

/-- A header line with fewer than three space-separated tokens aborts the
parse with the `mdline` error naming the raw line. -/
theorem parseLoop_mdline_err {l : List Char} (hh : isHeaderLine l = true)
    (hlen : (goSplit ' ' l).length < 3) (rest : List (List Char)) (acc : List mdStatus) :
    parseMdstatLoop (l :: rest) acc = .err acc ("error parsing mdline: ".data ++ l) := by
  obtain ⟨c0, cs, rfl, hc, hp, hu⟩ := isHeaderLine_spec hh
  simp [parseMdstatLoop, hc, hp, hu, hlen]

/-- A list of length at least three starts with three elements. -/
theorem len3_decomp {α : Type} {xs : List α} (h : ¬xs.length < 3) :
    ∃ t0 t1 t2 ts, xs = t0 :: t1 :: t2 :: ts := by
  cases xs with
  | nil => simp at h
  | cons a xs1 =>
    cases xs1 with
    | nil => simp at h
    | cons b xs2 =>
      cases xs2 with
      | nil => simp at h
      | cons c xs3 => exact ⟨a, b, c, xs3, rfl⟩

/-- A header line with fewer than three lines remaining after it aborts
the parse with the truncation error naming the device and the source
path, whatever those following lines contain. -/
theorem parseLoop_trunc_err {l : List Char} (hh : isHeaderLine l = true)
    {t0 t1 t2 : List Char} {ts : List (List Char)} (htoks : goSplit ' ' l = t0 :: t1 :: t2 :: ts)
    {rest : List (List Char)} (hr : rest.length < 3) (acc : List mdStatus) :
    parseMdstatLoop (l :: rest) acc =
      .err acc ("error parsing ".data ++ statusfile ++ ": entry for ".data ++
        t0 ++ " has fewer lines than expected".data) := by
  obtain ⟨c0, cs, rfl, hc, hp, hu⟩ := isHeaderLine_spec hh
  have hle : ¬((goSplit ' ' (c0 :: cs)).length < 3) := by
    rw [htoks]
    simp only [List.length_cons]
    omega
  have hm0 : (goSplit ' ' (c0 :: cs))[0]? = some t0 := by
    rw [htoks]
    simp
  have hm2 : (goSplit ' ' (c0 :: cs))[2]? = some t2 := by
    rw [htoks]
    simp
  simp [parseMdstatLoop, hc, hp, hu, hle, hm0, hm2, hr]

/-- A header line whose status line fails to evaluate aborts the parse,
wrapping the evaluation error with the source path. -/
theorem parseLoop_status_err {l : List Char} (hh : isHeaderLine l = true)
    {t0 t1 t2 : List Char} {ts : List (List Char)} (htoks : goSplit ' ' l = t0 :: t1 :: t2 :: ts)
    {rest : List (List Char)} {r0 r1 r2 : List Char} {rs : List (List Char)}
    (hrest : rest = r0 :: r1 :: r2 :: rs) {e : List Char}
    (he : evalStatusline r0 = .error e) (acc : List mdStatus) :
    parseMdstatLoop (l :: rest) acc =
      .err acc ("error parsing ".data ++ statusfile ++ ": ".data ++ e) := by
  obtain ⟨c0, cs, rfl, hc, hp, hu⟩ := isHeaderLine_spec hh
  have hle : ¬((goSplit ' ' (c0 :: cs)).length < 3) := by
    rw [htoks]
    simp only [List.length_cons]
    omega
  have hm0 : (goSplit ' ' (c0 :: cs))[0]? = some t0 := by
    rw [htoks]
    simp
  have hm2 : (goSplit ' ' (c0 :: cs))[2]? = some t2 := by
    rw [htoks]
    simp
  have hr3 : ¬(rest.length < 3) := by
    rw [hrest]
    simp only [List.length_cons]
    omega
  have hg0 : rest[0]? = some r0 := by
    rw [hrest]
    simp
  simp [parseMdstatLoop, hc, hp, hu, hle, hm0, hm2, hr3, hg0, he]

/-- A header line whose section parses without a recovery/resync line:
the loop appends a record fully synced (`blocksSynced = size`) and
continues with the immediately following lines. -/
theorem parseLoop_nosync_step {l : List Char} (hh : isHeaderLine l = true)
    {t0 t1 t2 : List Char} {ts : List (List Char)} (htoks : goSplit ' ' l = t0 :: t1 :: t2 :: ts)
    {rest : List (List Char)} {r0 r1 r2 : List Char} {rs : List (List Char)}
    (hrest : rest = r0 :: r1 :: r2 :: rs) {active total size : Int}
    (hok : evalStatusline r0 = .ok (active, total, size))
    (hnr : (goContains (if goContains r1 "bitmap".data then r2 else r1) "recovery".data ||
            goContains (if goContains r1 "bitmap".data then r2 else r1) "resync".data) = false)
    (acc : List mdStatus) :
    parseMdstatLoop (l :: rest) acc =
      parseMdstatLoop rest
        (acc ++ [⟨t0, t2 == "active".data, active, total, size, size⟩]) := by
  obtain ⟨c0, cs, rfl, hc, hp, hu⟩ := isHeaderLine_spec hh
  have hle : ¬((goSplit ' ' (c0 :: cs)).length < 3) := by
    rw [htoks]
    simp only [List.length_cons]
    omega
  have hm0 : (goSplit ' ' (c0 :: cs))[0]? = some t0 := by
    rw [htoks]
    simp
  have hm2 : (goSplit ' ' (c0 :: cs))[2]? = some t2 := by
    rw [htoks]
    simp
  have hr3 : ¬(rest.length < 3) := by
    rw [hrest]
    simp only [List.length_cons]
    omega
  have hg0 : rest[0]? = some r0 := by
    rw [hrest]
    simp
  have hg1 : rest[1]? = some r1 := by
    rw [hrest]
    simp
  have hg2 : rest[2]? = some r2 := by
    rw [hrest]
    simp
  by_cases hb : goContains r1 "bitmap".data
  · simp only [hb, if_true] at hnr
    simp [parseMdstatLoop, hc, hp, hu, hle, hm0, hm2, hr3, hg0, hg1, hg2, hok, hb, hnr]
  · simp only [hb, Bool.false_eq_true, if_false] at hnr
    simp [parseMdstatLoop, hc, hp, hu, hle, hm0, hm2, hr3, hg0, hg1, hg2, hok, hb, hnr]

/-- A header line whose section carries a recovery/resync line that
evaluates: the loop appends a record with the evaluated synced-block
count and continues with the immediately following lines. -/
theorem parseLoop_sync_step {l : List Char} (hh : isHeaderLine l = true)
    {t0 t1 t2 : List Char} {ts : List (List Char)} (htoks : goSplit ' ' l = t0 :: t1 :: t2 :: ts)
    {rest : List (List Char)} {r0 r1 r2 : List Char} {rs : List (List Char)}
    (hrest : rest = r0 :: r1 :: r2 :: rs) {active total size syncedBlocks : Int}
    (hok : evalStatusline r0 = .ok (active, total, size))
    (hsync : (goContains (if goContains r1 "bitmap".data then r2 else r1) "recovery".data ||
              goContains (if goContains r1 "bitmap".data then r2 else r1) "resync".data) = true)
    (hbuild : evalBuildline (if goContains r1 "bitmap".data then r2 else r1) = .ok syncedBlocks)
    (acc : List mdStatus) :
    parseMdstatLoop (l :: rest) acc =
      parseMdstatLoop rest
        (acc ++ [⟨t0, t2 == "active".data, active, total, size, syncedBlocks⟩]) := by
  obtain ⟨c0, cs, rfl, hc, hp, hu⟩ := isHeaderLine_spec hh
  have hle : ¬((goSplit ' ' (c0 :: cs)).length < 3) := by
    rw [htoks]
    simp only [List.length_cons]
    omega
  have hm0 : (goSplit ' ' (c0 :: cs))[0]? = some t0 := by
    rw [htoks]
    simp
  have hm2 : (goSplit ' ' (c0 :: cs))[2]? = some t2 := by
    rw [htoks]
    simp
  have hr3 : ¬(rest.length < 3) := by
    rw [hrest]
    simp only [List.length_cons]
    omega
  have hg0 : rest[0]? = some r0 := by
    rw [hrest]
    simp
  have hg1 : rest[1]? = some r1 := by
    rw [hrest]
    simp
  have hg2 : rest[2]? = some r2 := by
    rw [hrest]
    simp
  by_cases hb : goContains r1 "bitmap".data
  · simp only [hb, if_true] at hsync hbuild
    simp [parseMdstatLoop, hc, hp, hu, hle, hm0, hm2, hr3, hg0, hg1, hg2, hok, hb, hsync, hbuild]
  · simp only [hb, Bool.false_eq_true, if_false] at hsync hbuild
    simp [parseMdstatLoop, hc, hp, hu, hle, hm0, hm2, hr3, hg0, hg1, hg2, hok, hb, hsync, hbuild]

/-- A header line whose recovery/resync line fails to evaluate aborts the
parse, wrapping the evaluation error with the source path. -/
theorem parseLoop_build_err {l : List Char} (hh : isHeaderLine l = true)
    {t0 t1 t2 : List Char} {ts : List (List Char)} (htoks : goSplit ' ' l = t0 :: t1 :: t2 :: ts)
    {rest : List (List Char)} {r0 r1 r2 : List Char} {rs : List (List Char)}
    (hrest : rest = r0 :: r1 :: r2 :: rs) {active total size : Int}
    (hok : evalStatusline r0 = .ok (active, total, size))
    (hsync : (goContains (if goContains r1 "bitmap".data then r2 else r1) "recovery".data ||
              goContains (if goContains r1 "bitmap".data then r2 else r1) "resync".data) = true)
    {e : List Char}
    (hbuild : evalBuildline (if goContains r1 "bitmap".data then r2 else r1) = .error e)
    (acc : List mdStatus) :
    parseMdstatLoop (l :: rest) acc =
      .err acc ("error parsing ".data ++ statusfile ++ ": ".data ++ e) := by
  obtain ⟨c0, cs, rfl, hc, hp, hu⟩ := isHeaderLine_spec hh
  have hle : ¬((goSplit ' ' (c0 :: cs)).length < 3) := by
    rw [htoks]
    simp only [List.length_cons]
    omega
  have hm0 : (goSplit ' ' (c0 :: cs))[0]? = some t0 := by
    rw [htoks]
    simp
  have hm2 : (goSplit ' ' (c0 :: cs))[2]? = some t2 := by
    rw [htoks]
    simp
  have hr3 : ¬(rest.length < 3) := by
    rw [hrest]
    simp only [List.length_cons]
    omega
  have hg0 : rest[0]? = some r0 := by
    rw [hrest]
    simp
  have hg1 : rest[1]? = some r1 := by
    rw [hrest]
    simp
  have hg2 : rest[2]? = some r2 := by
    rw [hrest]
    simp
  by_cases hb : goContains r1 "bitmap".data
  · simp only [hb, if_true] at hsync hbuild
    simp [parseMdstatLoop, hc, hp, hu, hle, hm0, hm2, hr3, hg0, hg1, hg2, hok, hb, hsync, hbuild]
  · simp only [hb, Bool.false_eq_true, if_false] at hsync hbuild
    simp [parseMdstatLoop, hc, hp, hu, hle, hm0, hm2, hr3, hg0, hg1, hg2, hok, hb, hsync, hbuild]

/-!
Loop inductions
-/

/-- A non-skipped line decomposes as a header line. -/
theorem isHeaderLine_of_conds {c0 : Char} {cs : List Char} (hsp : ¬c0 = ' ')
    (hpre : ¬(goHasPrefix (c0 :: cs) "Personalities".data ||
              goHasPrefix (c0 :: cs) "unused".data) = true) :
    isHeaderLine (c0 :: cs) = true := by
  simp only [Bool.or_eq_true, not_or, Bool.not_eq_true] at hpre
  simp [isHeaderLine, hsp, hpre.1, hpre.2]

/-- The scan loop never panics: every index access is guarded by the
emptiness, token-count and line-count checks, and the regexp submatch
lists always have exactly the guarded length. -/
theorem parseLoop_no_panic :
    ∀ (lines : List (List Char)) (acc : List mdStatus),
      (parseMdstatLoop lines acc).isPanic = false := by
  intro lines
  induction lines with
  | nil =>
    intro acc
    simp [parseMdstatLoop, ParseResult.isPanic]
  | cons l rest ih =>
    intro acc
    by_cases h0 : l = []
    · rw [h0, parseLoop_skip_empty]
      exact ih acc
    · obtain ⟨c0, cs, rfl⟩ : ∃ c0 cs, l = c0 :: cs := by
        cases l with
        | nil => exact absurd rfl h0
        | cons a b => exact ⟨a, b, rfl⟩
      by_cases hsp : c0 = ' '
      · subst hsp
        rw [parseLoop_skip_space]
        exact ih acc
      · by_cases hpre : (goHasPrefix (c0 :: cs) "Personalities".data ||
            goHasPrefix (c0 :: cs) "unused".data) = true
        · rw [parseLoop_skip_prefixed hsp hpre]
          exact ih acc
        · have hh := isHeaderLine_of_conds hsp hpre
          by_cases htl : (goSplit ' ' (c0 :: cs)).length < 3
          · rw [parseLoop_mdline_err hh htl]
            simp [ParseResult.isPanic]
          · obtain ⟨t0, t1, t2, ts, htoks⟩ := len3_decomp htl
            by_cases hr : rest.length < 3
            · rw [parseLoop_trunc_err hh htoks hr]
              simp [ParseResult.isPanic]
            · obtain ⟨r0, r1, r2, rs, hrest⟩ := len3_decomp hr
              cases hev : evalStatusline r0 with
              | panic p =>
                have hnp := evalStatusline_no_panic r0
                rw [hev] at hnp
                simp [GoRes.isPanic] at hnp
              | error e =>
                rw [parseLoop_status_err hh htoks hrest hev]
                simp [ParseResult.isPanic]
              | ok v =>
                obtain ⟨active, total, size⟩ := v
                by_cases hsync : (goContains (if goContains r1 "bitmap".data then r2 else r1)
                    "recovery".data ||
                  goContains (if goContains r1 "bitmap".data then r2 else r1) "resync".data) = true
                · cases hbuild : evalBuildline (if goContains r1 "bitmap".data then r2 else r1) with
                  | panic p =>
                    have hnp := evalBuildline_no_panic
                      (if goContains r1 "bitmap".data then r2 else r1)
                    rw [hbuild] at hnp
                    simp [GoRes.isPanic] at hnp
                  | error e =>
                    rw [parseLoop_build_err hh htoks hrest hev hsync hbuild]
                    simp [ParseResult.isPanic]
                  | ok sy =>
                    rw [parseLoop_sync_step hh htoks hrest hev hsync hbuild]
                    exact ih _
                · have hsync' : (goContains (if goContains r1 "bitmap".data then r2 else r1)
                      "recovery".data ||
                    goContains (if goContains r1 "bitmap".data then r2 else r1) "resync".data)
                      = false := by
                    revert hsync
                    cases goContains (if goContains r1 "bitmap".data then r2 else r1)
                        "recovery".data ||
                      goContains (if goContains r1 "bitmap".data then r2 else r1) "resync".data
                    · intro _
                      rfl
                    · intro hx
                      exact absurd rfl hx
                  rw [parseLoop_nosync_step hh htoks hrest hev hsync']
                  exact ih _

/-- A `Personalities`/`unused` line is not a header line. -/
theorem isHeaderLine_false_of_prefixed {c0 : Char} {cs : List Char}
    (hpre : (goHasPrefix (c0 :: cs) "Personalities".data ||
             goHasPrefix (c0 :: cs) "unused".data) = true) :
    isHeaderLine (c0 :: cs) = false := by
  have hpre2 : goHasPrefix (c0 :: cs) "Personalities".data = true ∨
      goHasPrefix (c0 :: cs) "unused".data = true := by
    simpa [Bool.or_eq_true] using hpre
  rcases hpre2 with h | h <;> simp [isHeaderLine, h]

/-- A successful scan extends the accumulator with one record per header
line, in header-line order, each record named by the first token of its
header line. -/
theorem parseLoop_ok_names :
    ∀ (lines : List (List Char)) (acc out : List mdStatus),
      parseMdstatLoop lines acc = .ok out →
      ∃ tail, out = acc ++ tail ∧ tail.map (fun r => r.mdName) = headerNames lines := by
  intro lines
  induction lines with
  | nil =>
    intro acc out hok
    simp only [parseMdstatLoop, ParseResult.ok.injEq] at hok
    exact ⟨[], by simp [hok], by simp [headerNames]⟩
  | cons l rest ih =>
    intro acc out hok
    by_cases h0 : l = []
    · rw [h0, parseLoop_skip_empty] at hok
      obtain ⟨tail, h1, h2⟩ := ih acc out hok
      exact ⟨tail, h1, by simpa [h0, headerNames, isHeaderLine] using h2⟩
    · obtain ⟨c0, cs, rfl⟩ : ∃ c0 cs, l = c0 :: cs := by
        cases l with
        | nil => exact absurd rfl h0
        | cons a b => exact ⟨a, b, rfl⟩
      by_cases hsp : c0 = ' '
      · subst hsp
        rw [parseLoop_skip_space] at hok
        obtain ⟨tail, h1, h2⟩ := ih acc out hok
        exact ⟨tail, h1, by simpa [headerNames, isHeaderLine] using h2⟩
      · by_cases hpre : (goHasPrefix (c0 :: cs) "Personalities".data ||
            goHasPrefix (c0 :: cs) "unused".data) = true
        · rw [parseLoop_skip_prefixed hsp hpre] at hok
          obtain ⟨tail, h1, h2⟩ := ih acc out hok
          exact ⟨tail, h1,
            by simpa [headerNames, isHeaderLine_false_of_prefixed hpre] using h2⟩
        · have hh := isHeaderLine_of_conds hsp hpre
          by_cases htl : (goSplit ' ' (c0 :: cs)).length < 3
          · rw [parseLoop_mdline_err hh htl] at hok
            simp at hok
          · obtain ⟨t0, t1, t2, ts, htoks⟩ := len3_decomp htl
            by_cases hr : rest.length < 3
            · rw [parseLoop_trunc_err hh htoks hr] at hok
              simp at hok
            · obtain ⟨r0, r1, r2, rs, hrest⟩ := len3_decomp hr
              cases hev : evalStatusline r0 with
              | panic p =>
                have hnp := evalStatusline_no_panic r0
                rw [hev] at hnp
                simp [GoRes.isPanic] at hnp
              | error e =>
                rw [parseLoop_status_err hh htoks hrest hev] at hok
                simp at hok
              | ok v =>
                obtain ⟨active, total, size⟩ := v
                by_cases hsync : (goContains (if goContains r1 "bitmap".data then r2 else r1)
                    "recovery".data ||
                  goContains (if goContains r1 "bitmap".data then r2 else r1) "resync".data) = true
                · cases hbuild : evalBuildline
                      (if goContains r1 "bitmap".data then r2 else r1) with
                  | panic p =>
                    have hnp := evalBuildline_no_panic
                      (if goContains r1 "bitmap".data then r2 else r1)
                    rw [hbuild] at hnp
                    simp [GoRes.isPanic] at hnp
                  | error e =>
                    rw [parseLoop_build_err hh htoks hrest hev hsync hbuild] at hok
                    simp at hok
                  | ok sy =>
                    rw [parseLoop_sync_step hh htoks hrest hev hsync hbuild] at hok
                    obtain ⟨tail', h1, h2⟩ := ih _ out hok
                    refine ⟨⟨t0, t2 == "active".data, active, total, size, sy⟩ :: tail', ?_, ?_⟩
                    · rw [h1]
                      simp
                    · simp [headerNames, hh, h2, firstToken, htoks]
                · have hsync' : (goContains (if goContains r1 "bitmap".data then r2 else r1)
                      "recovery".data ||
                    goContains (if goContains r1 "bitmap".data then r2 else r1) "resync".data)
                      = false := by
                    revert hsync
                    cases goContains (if goContains r1 "bitmap".data then r2 else r1)
                        "recovery".data ||
                      goContains (if goContains r1 "bitmap".data then r2 else r1) "resync".data
                    · intro _
                      rfl
                    · intro hx
                      exact absurd rfl hx
                  rw [parseLoop_nosync_step hh htoks hrest hev hsync'] at hok
                  obtain ⟨tail', h1, h2⟩ := ih _ out hok
                  refine ⟨⟨t0, t2 == "active".data, active, total, size, size⟩ :: tail', ?_, ?_⟩
                  · rw [h1]
                    simp
                  · simp [headerNames, hh, h2, firstToken, htoks]

/-- Header indices counted from `i` are at least `i`. -/
theorem headerIdxFrom_ge :
    ∀ (s : List (List Char)) (i x : Nat), x ∈ headerIdxFrom s i → i ≤ x := by
  intro s
  induction s with
  | nil =>
    intro i x hx
    simp [headerIdxFrom] at hx
  | cons l rest ih =>
    intro i x hx
    cases hl : isHeaderLine l
    · rw [headerIdxFrom, hl] at hx
      simp only [Bool.false_eq_true, if_false, List.nil_append] at hx
      have := ih (i + 1) x hx
      omega
    · rw [headerIdxFrom, hl] at hx
      simp only [if_true, List.singleton_append, List.mem_cons] at hx
      rcases hx with h | h
      · omega
      · have := ih (i + 1) x h
        omega

/-- Header indices are strictly increasing: the records appear in the
order of their header lines. -/
theorem headerIdxFrom_pairwise :
    ∀ (s : List (List Char)) (i : Nat), (headerIdxFrom s i).Pairwise (· < ·) := by
  intro s
  induction s with
  | nil =>
    intro i
    simp [headerIdxFrom]
  | cons l rest ih =>
    intro i
    cases hl : isHeaderLine l
    · simpa [headerIdxFrom, hl] using ih (i + 1)
    · rw [headerIdxFrom, hl]
      simp only [if_true, List.singleton_append]
      refine List.Pairwise.cons ?_ (ih (i + 1))
      intro x hx
      have := headerIdxFrom_ge rest (i + 1) x hx
      omega

/-- There are as many header indices as header names. -/
theorem headerIdxFrom_length :
    ∀ (s : List (List Char)) (i : Nat),
      (headerIdxFrom s i).length = (headerNames s).length := by
  intro s
  induction s with
  | nil =>
    intro i
    simp [headerIdxFrom, headerNames]
  | cons l rest ih =>
    intro i
    cases hl : isHeaderLine l <;>
      simp [headerIdxFrom, headerNames, hl, ih (i + 1)]

/-- Reading the first token at each header index of the full line list
recovers the header names. -/
theorem headerIdxFrom_map_firstToken :
    ∀ (s : List (List Char)) (i : Nat) (full : List (List Char)), full.drop i = s →
      (headerIdxFrom s i).map (fun ix => firstToken (full.getD ix [])) = headerNames s := by
  intro s
  induction s with
  | nil =>
    intro i full h
    simp [headerIdxFrom, headerNames]
  | cons l rest ih =>
    intro i full h
    obtain ⟨hget, hdrop⟩ := drop_eq_cons_split full i l rest h
    have hldE : full[i]? = some l := by
      rw [← List.get?_eq_getElem?]
      exact hget
    have ihn := ih (i + 1) full hdrop
    simp only [List.getD_eq_getElem?_getD] at ihn
    cases hl : isHeaderLine l
    · simpa [headerIdxFrom, headerNames, hl] using ihn
    · simp [headerIdxFrom, headerNames, hl, hldE, ihn]

/-- Every record of a successful scan that is not already in the
accumulator is explained by a device section of the full line list. -/
theorem parseLoop_ok_sections :
    ∀ (lines : List (List Char)) (acc out : List mdStatus) (full : List (List Char)) (i : Nat),
      full.drop i = lines → parseMdstatLoop lines acc = .ok out →
      ∀ r ∈ out, r ∈ acc ∨ ∃ k, sectionFor full k r := by
  intro lines
  induction lines with
  | nil =>
    intro acc out full i hdrop hok r hr
    simp only [parseMdstatLoop, ParseResult.ok.injEq] at hok
    exact Or.inl (by rw [hok]; exact hr)
  | cons l rest ih =>
    intro acc out full i hdrop hok r hr
    obtain ⟨hgetl, hdrop'⟩ := drop_eq_cons_split full i l rest hdrop
    by_cases h0 : l = []
    · rw [h0, parseLoop_skip_empty] at hok
      exact ih acc out full (i + 1) hdrop' hok r hr
    · obtain ⟨c0, cs, rfl⟩ : ∃ c0 cs, l = c0 :: cs := by
        cases l with
        | nil => exact absurd rfl h0
        | cons a b => exact ⟨a, b, rfl⟩
      by_cases hsp : c0 = ' '
      · subst hsp
        rw [parseLoop_skip_space] at hok
        exact ih acc out full (i + 1) hdrop' hok r hr
      · by_cases hpre : (goHasPrefix (c0 :: cs) "Personalities".data ||
            goHasPrefix (c0 :: cs) "unused".data) = true
        · rw [parseLoop_skip_prefixed hsp hpre] at hok
          exact ih acc out full (i + 1) hdrop' hok r hr
        · have hh := isHeaderLine_of_conds hsp hpre
          by_cases htl : (goSplit ' ' (c0 :: cs)).length < 3
          · rw [parseLoop_mdline_err hh htl] at hok
            simp at hok
          · obtain ⟨t0, t1, t2, ts, htoks⟩ := len3_decomp htl
            by_cases hr3 : rest.length < 3
            · rw [parseLoop_trunc_err hh htoks hr3] at hok
              simp at hok
            · obtain ⟨r0, r1, r2, rs, hrest⟩ := len3_decomp hr3
              have hsplit0 := drop_eq_cons_split full (i + 1) r0 (r1 :: r2 :: rs)
                (by rw [hdrop', hrest])
              have hsplit1 := drop_eq_cons_split full (i + 2) r1 (r2 :: rs) hsplit0.2
              have hsplit2 := drop_eq_cons_split full (i + 3) r2 rs hsplit1.2
              have hld0 : full[i]? = some (c0 :: cs) := by
                rw [← List.get?_eq_getElem?]
                exact hgetl
              have hld1 : full[i + 1]? = some r0 := by
                rw [← List.get?_eq_getElem?]
                exact hsplit0.1
              have hld2 : full[i + 2]? = some r1 := by
                rw [← List.get?_eq_getElem?]
                exact hsplit1.1
              have hld3 : full[i + 3]? = some r2 := by
                rw [← List.get?_eq_getElem?]
                exact hsplit2.1
              cases hev : evalStatusline r0 with
              | panic p =>
                have hnp := evalStatusline_no_panic r0
                rw [hev] at hnp
                simp [GoRes.isPanic] at hnp
              | error e =>
                rw [parseLoop_status_err hh htoks hrest hev] at hok
                simp at hok
              | ok v =>
                obtain ⟨active, total, size⟩ := v
                by_cases hsync : (goContains (if goContains r1 "bitmap".data then r2 else r1)
                    "recovery".data ||
                  goContains (if goContains r1 "bitmap".data then r2 else r1) "resync".data) = true
                · cases hbuild : evalBuildline
                      (if goContains r1 "bitmap".data then r2 else r1) with
                  | panic p =>
                    have hnp := evalBuildline_no_panic
                      (if goContains r1 "bitmap".data then r2 else r1)
                    rw [hbuild] at hnp
                    simp [GoRes.isPanic] at hnp
                  | error e =>
                    rw [parseLoop_build_err hh htoks hrest hev hsync hbuild] at hok
                    simp at hok
                  | ok sy =>
                    rw [parseLoop_sync_step hh htoks hrest hev hsync hbuild] at hok
                    rcases ih _ out full (i + 1) hdrop' hok r hr with hmem | hsec
                    · rcases List.mem_append.mp hmem with hacc | hnew
                      · exact Or.inl hacc
                      · have hrr : r = ⟨t0, t2 == "active".data, active, total, size, sy⟩ := by
                          simpa using hnew
                        subst hrr
                        refine Or.inr ⟨i, ?_, ?_, ?_⟩
                        · simp [List.getD_eq_getElem?_getD, hld0, firstToken, htoks]
                        · simp [List.getD_eq_getElem?_getD, hld1, hev]
                        · by_cases hb : goContains r1 "bitmap".data
                          · simp only [hb, if_true] at hsync hbuild
                            simp [List.getD_eq_getElem?_getD, hld2, hld3, hb, hsync, hbuild]
                          · simp only [hb, Bool.false_eq_true, if_false] at hsync hbuild
                            simp [List.getD_eq_getElem?_getD, hld2, hb, hsync, hbuild]
                    · exact Or.inr hsec
                · have hsync' : (goContains (if goContains r1 "bitmap".data then r2 else r1)
                      "recovery".data ||
                    goContains (if goContains r1 "bitmap".data then r2 else r1) "resync".data)
                      = false := by
                    revert hsync
                    cases goContains (if goContains r1 "bitmap".data then r2 else r1)
                        "recovery".data ||
                      goContains (if goContains r1 "bitmap".data then r2 else r1) "resync".data
                    · intro _
                      rfl
                    · intro hx
                      exact absurd rfl hx
                  rw [parseLoop_nosync_step hh htoks hrest hev hsync'] at hok
                  rcases ih _ out full (i + 1) hdrop' hok r hr with hmem | hsec
                  · rcases List.mem_append.mp hmem with hacc | hnew
                    · exact Or.inl hacc
                    · have hrr : r = ⟨t0, t2 == "active".data, active, total, size, size⟩ := by
                        simpa using hnew
                      subst hrr
                      refine Or.inr ⟨i, ?_, ?_, ?_⟩
                      · simp [List.getD_eq_getElem?_getD, hld0, firstToken, htoks]
                      · simp [List.getD_eq_getElem?_getD, hld1, hev]
                      · by_cases hb : goContains r1 "bitmap".data
                        · simp only [hb, if_true] at hsync'
                          simp [List.getD_eq_getElem?_getD, hld2, hld3, hb, hsync']
                        · simp only [hb, Bool.false_eq_true, if_false] at hsync'
                          simp [List.getD_eq_getElem?_getD, hld2, hb, hsync']
                  · exact Or.inr hsec

/-!
The claims
-/

/-- Claim C1: for every status line matched by the status-line pattern,
`evalStatusline` returns `(active, total, size)` built from the third,
second and first numeric capture respectively, so the record constructor
receives blocksTotal from the first capture, disksTotal from the second
and disksActive from the third; and parsing the worked-example input
yields exactly one record
`{md0, active, disksActive 2, disksTotal 2, blocksTotal 1953511936,
blocksSynced 1953511936}`. -/
theorem claim1 :
    (∀ (l w a b c : List Char) (na nb nc : Int),
      statuslineSubmatch l = [w, a, b, c] →
      parseInt64 a = .ok na → parseInt64 b = .ok nb → parseInt64 c = .ok nc →
      evalStatusline l = .ok (nc, nb, na)) ∧
    parseMdstat (.content ("Personalities : [raid1]\nmd0 : active raid1 sda1[0] sdb1[1]\n      1953511936 blocks [2/2] [UU]\n\nunused devices: <none>\n").data) =
      .ok [⟨"md0".data, true, 2, 2, 1953511936, 1953511936⟩] := by
  constructor
  · intro l w a b c na nb nc h ha hb hc
    exact evalStatusline_ok h ha hb hc
  · decide

/-- Witness for C1 at the worked-example status line. -/
theorem claim1_witness :
    evalStatusline "      1953511936 blocks [2/2] [UU]".data = .ok (2, 2, 1953511936) :=
  claim1.1 "      1953511936 blocks [2/2] [UU]".data
    "1953511936 blocks [2/2] [UU]".data "1953511936".data "2".data "2".data
    1953511936 2 2 (by decide) (by rfl) (by rfl) (by rfl)

/-- Claim C2 is false of the code: a status line with an extra bracket
group and a build line with two parenthesized ratios both parse
successfully instead of failing.  Go's `FindStringSubmatch` always
returns exactly one entry per capture group plus the whole match, so the
`too many matches` branches are dead code: the submatch length is always
0 or 4 for the status pattern and 0 or 2 for the build pattern.  The
greedy `.*` makes the status pattern use the last bracketed ratio, and
leftmost search makes the build pattern use the first parenthesized
ratio. -/
theorem claim2 :
    evalStatusline "1 blocks [2/2] [UU] [3/3] [UU]".data = .ok (3, 3, 1) ∧
    evalBuildline "[==>..........] recovery = 45.0% (10/20) (30/40)".data = .ok 10 ∧
    (∀ s : List Char, (statuslineSubmatch s).length = 0 ∨ (statuslineSubmatch s).length = 4) ∧
    (∀ s : List Char, (buildlineSubmatch s).length = 0 ∨ (buildlineSubmatch s).length = 2) := by
  refine ⟨by decide, by decide, ?_, ?_⟩
  · intro s
    rcases statuslineSubmatch_cases s with h | ⟨w, a, b, c, h, _⟩ <;> simp [h]
  · intro s
    rcases buildlineSubmatch_cases s with h | ⟨w, a, h, _⟩ <;> simp [h]

/-- Claim C3: the collector is total on every file state: no modelled
index access of the line list, of a line's characters or of a submatch
list ever goes out of range, so no panic is reachable; every rejection
returns an error value. -/
theorem claim3 : ∀ f : MdstatFile, (Update f).isPanic = false := by
  intro f
  cases f with
  | absent => simp [Update, UpdateResult.isPanic]
  | statError e => simp [Update, UpdateResult.isPanic]
  | readable ro =>
    cases ro with
    | readError e => simp [Update, parseMdstat, UpdateResult.isPanic]
    | content c =>
      cases hp : parseMdstatLoop (goSplit '\n' c) [] with
      | ok l => simp [Update, parseMdstat, hp, UpdateResult.isPanic]
      | err l e => simp [Update, parseMdstat, hp, UpdateResult.isPanic]
      | panic p =>
        have h := parseLoop_no_panic (goSplit '\n' c) []
        rw [hp] at h
        simp [ParseResult.isPanic] at h

/-- Claim C4: on every line treated as a device header, fewer than three
space-separated tokens abort the parse with an error naming the raw line;
otherwise any record produced by this header takes its name from the
first token and is active exactly when the third token is the literal
`active`. -/
theorem claim4 (l : List Char) (rest : List (List Char)) (acc : List mdStatus)
    (hh : isHeaderLine l = true) :
    ((goSplit ' ' l).length < 3 →
      parseMdstatLoop (l :: rest) acc = .err acc ("error parsing mdline: ".data ++ l)) ∧
    (¬(goSplit ' ' l).length < 3 →
      (∃ e, parseMdstatLoop (l :: rest) acc = .err acc e) ∨
      ∃ r, parseMdstatLoop (l :: rest) acc = parseMdstatLoop rest (acc ++ [r]) ∧
        r.mdName = firstToken l ∧
        r.isActive = ((goSplit ' ' l).getD 2 [] == "active".data)) := by
  constructor
  · intro hlen
    exact parseLoop_mdline_err hh hlen rest acc
  · intro hlen
    obtain ⟨t0, t1, t2, ts, htoks⟩ := len3_decomp hlen
    have hname : firstToken l = t0 := by simp [firstToken, htoks]
    have hact : (goSplit ' ' l)[2]? = some t2 := by
      rw [htoks]
      simp
    by_cases hr : rest.length < 3
    · exact Or.inl ⟨_, parseLoop_trunc_err hh htoks hr acc⟩
    · obtain ⟨r0, r1, r2, rs, hrest⟩ := len3_decomp hr
      cases hev : evalStatusline r0 with
      | panic p =>
        have hnp := evalStatusline_no_panic r0
        rw [hev] at hnp
        simp [GoRes.isPanic] at hnp
      | error e =>
        exact Or.inl ⟨_, parseLoop_status_err hh htoks hrest hev acc⟩
      | ok v =>
        obtain ⟨active, total, size⟩ := v
        by_cases hsync : (goContains (if goContains r1 "bitmap".data then r2 else r1)
            "recovery".data ||
          goContains (if goContains r1 "bitmap".data then r2 else r1) "resync".data) = true
        · cases hbuild : evalBuildline (if goContains r1 "bitmap".data then r2 else r1) with
          | panic p =>
            have hnp := evalBuildline_no_panic (if goContains r1 "bitmap".data then r2 else r1)
            rw [hbuild] at hnp
            simp [GoRes.isPanic] at hnp
          | error e =>
            exact Or.inl ⟨_, parseLoop_build_err hh htoks hrest hev hsync hbuild acc⟩
          | ok sy =>
            exact Or.inr ⟨⟨t0, t2 == "active".data, active, total, size, sy⟩,
              parseLoop_sync_step hh htoks hrest hev hsync hbuild acc,
              by simp [hname], by simp [hact]⟩
        · have hsync' : (goContains (if goContains r1 "bitmap".data then r2 else r1)
              "recovery".data ||
            goContains (if goContains r1 "bitmap".data then r2 else r1) "resync".data) = false := by
            revert hsync
            cases goContains (if goContains r1 "bitmap".data then r2 else r1) "recovery".data ||
              goContains (if goContains r1 "bitmap".data then r2 else r1) "resync".data
            · intro _
              rfl
            · intro hx
              exact absurd rfl hx
          exact Or.inr ⟨⟨t0, t2 == "active".data, active, total, size, size⟩,
            parseLoop_nosync_step hh htoks hrest hev hsync' acc,
            by simp [hname], by simp [hact]⟩

/-- Witness for C4: a one-token header line fails naming the line. -/
theorem claim4_witness :
    parseMdstatLoop ["md0".data] [] = .err [] ("error parsing mdline: ".data ++ "md0".data) :=
  (claim4 "md0".data [] [] (by decide)).1 (by decide)

/-- Claim C5: a device header followed by fewer than three lines aborts
the parse with the truncation error naming the device and the source
path, whatever those following lines contain (so before any status-line
matching can be attempted). -/
theorem claim5 (l : List Char) (rest : List (List Char)) (acc : List mdStatus)
    (hh : isHeaderLine l = true) (htok : ¬(goSplit ' ' l).length < 3)
    (hr : rest.length < 3) :
    parseMdstatLoop (l :: rest) acc =
      .err acc ("error parsing ".data ++ statusfile ++ ": entry for ".data ++
        firstToken l ++ " has fewer lines than expected".data) := by
  obtain ⟨t0, t1, t2, ts, htoks⟩ := len3_decomp htok
  have hname : firstToken l = t0 := by simp [firstToken, htoks]
  rw [hname]
  exact parseLoop_trunc_err hh htoks hr acc

/-- Witness for C5: a single header line with nothing after it. -/
theorem claim5_witness :
    parseMdstatLoop ["md0 : active x".data] [] =
      .err [] ("error parsing ".data ++ statusfile ++ ": entry for ".data ++
        firstToken "md0 : active x".data ++ " has fewer lines than expected".data) :=
  claim5 "md0 : active x".data [] [] (by decide) (by decide) (by decide)

/-- Claim C6: every record of a successful parse is explained by a device
section: if the relevant line after the status line (skipping one line
when the line after the status line contains "bitmap") mentions neither
"recovery" nor "resync" then `blocksSynced = blocksTotal`, and otherwise
`blocksSynced` is the converted single numeric capture of the
`(N/total)` pattern on that line. -/
theorem claim6 :
    (∀ (c : List Char) (recs : List mdStatus), parseMdstat (.content c) = .ok recs →
      ∀ r ∈ recs, ∃ k, sectionFor (goSplit '\n' c) k r) ∧
    (∀ (l : List Char) (n : Int), evalBuildline l = .ok n →
      ∃ w a, buildlineSubmatch l = [w, a] ∧ parseInt64 a = .ok n) := by
  constructor
  · intro c recs hok r hr
    have hok' : parseMdstatLoop (goSplit '\n' c) [] = .ok recs := by
      simpa [parseMdstat] using hok
    rcases parseLoop_ok_sections (goSplit '\n' c) [] recs (goSplit '\n' c) 0 (by simp)
        hok' r hr with hmem | hsec
    · simp at hmem
    · exact hsec
  · intro l n h
    exact evalBuildline_ok_inv h

/-- Witness for C6 on a report with a recovery line. -/
theorem claim6_witness :
    ∃ k, sectionFor
      (goSplit '\n' ("md1 : active raid1 sda1[0] sdb1[1]\n      100 blocks [2/1] [U_]\n      [=>...] recovery = 45.0% (45/100) finish=0.5min\n\n").data)
      k ⟨"md1".data, true, 1, 2, 100, 45⟩ :=
  claim6.1 _ [⟨"md1".data, true, 1, 2, 100, 45⟩] (by decide) _ (by decide)

/-- Claim C7: a successful parse yields one record per header line; the
record names are the header first tokens in text order, and the header
indices are strictly increasing, so output position is a monotone image
of header position. -/
theorem claim7 (c : List Char) (recs : List mdStatus)
    (hok : parseMdstat (.content c) = .ok recs) :
    recs.map (fun r => r.mdName) = headerNames (goSplit '\n' c) ∧
    (headerIndices (goSplit '\n' c)).Pairwise (· < ·) ∧
    recs.length = (headerIndices (goSplit '\n' c)).length ∧
    (headerIndices (goSplit '\n' c)).map
        (fun ix => firstToken ((goSplit '\n' c).getD ix [])) = headerNames (goSplit '\n' c) := by
  have hok' : parseMdstatLoop (goSplit '\n' c) [] = .ok recs := by
    simpa [parseMdstat] using hok
  obtain ⟨tail, h1, h2⟩ := parseLoop_ok_names (goSplit '\n' c) [] recs hok'
  have hrecs : recs = tail := by simpa using h1
  subst hrecs
  refine ⟨h2, headerIdxFrom_pairwise _ 0, ?_, headerIdxFrom_map_firstToken _ 0 _ (by simp)⟩
  calc recs.length = (recs.map (fun r => r.mdName)).length := by simp
    _ = (headerNames (goSplit '\n' c)).length := by rw [h2]
    _ = (headerIndices (goSplit '\n' c)).length := (headerIdxFrom_length _ 0).symm

/-- Witness for C7 at the worked example. -/
theorem claim7_witness :
    ([⟨"md0".data, true, 2, 2, 1953511936, 1953511936⟩] : List mdStatus).map
        (fun r => r.mdName) =
      headerNames (goSplit '\n' ("Personalities : [raid1]\nmd0 : active raid1 sda1[0] sdb1[1]\n      1953511936 blocks [2/2] [UU]\n\nunused devices: <none>\n").data) ∧
    (headerIndices (goSplit '\n' ("Personalities : [raid1]\nmd0 : active raid1 sda1[0] sdb1[1]\n      1953511936 blocks [2/2] [UU]\n\nunused devices: <none>\n").data)).Pairwise (· < ·) ∧
    ([⟨"md0".data, true, 2, 2, 1953511936, 1953511936⟩] : List mdStatus).length =
      (headerIndices (goSplit '\n' ("Personalities : [raid1]\nmd0 : active raid1 sda1[0] sdb1[1]\n      1953511936 blocks [2/2] [UU]\n\nunused devices: <none>\n").data)).length ∧
    (headerIndices (goSplit '\n' ("Personalities : [raid1]\nmd0 : active raid1 sda1[0] sdb1[1]\n      1953511936 blocks [2/2] [UU]\n\nunused devices: <none>\n").data)).map
        (fun ix => firstToken ((goSplit '\n' ("Personalities : [raid1]\nmd0 : active raid1 sda1[0] sdb1[1]\n      1953511936 blocks [2/2] [UU]\n\nunused devices: <none>\n").data).getD ix [])) =
      headerNames (goSplit '\n' ("Personalities : [raid1]\nmd0 : active raid1 sda1[0] sdb1[1]\n      1953511936 blocks [2/2] [UU]\n\nunused devices: <none>\n").data) :=
  claim7 _ [⟨"md0".data, true, 2, 2, 1953511936, 1953511936⟩] (by decide)

/-- Claim C8: the collection pass is all-or-nothing: an absent source
emits nothing and returns no error; a failed stat returns its error with
nothing emitted; a failed parse emits nothing and returns the wrapped
error; a successful parse emits exactly five gauge observations per
device, each carrying that device's name as its only label value. -/
theorem claim8 :
    Update .absent = .done [] none ∧
    (∀ e, Update (.statError e) = .done [] (some e)) ∧
    (∀ ro ms e, parseMdstat ro = .err ms e →
      Update (.readable ro) =
        .done [] (some ("error parsing ".data ++ statusfile ++ ": ".data ++ e))) ∧
    (∀ ro recs, parseMdstat ro = .ok recs →
      Update (.readable ro) = .done (recs.flatMap metricsForDevice) none) ∧
    (∀ r : mdStatus, (metricsForDevice r).length = 5 ∧
      ∀ m ∈ metricsForDevice r, m.kind = .gauge ∧ m.label = r.mdName) := by
  refine ⟨rfl, fun e => rfl, ?_, ?_, ?_⟩
  · intro ro ms e h
    simp [Update, h]
  · intro ro recs h
    simp [Update, h]
  · intro r
    refine ⟨rfl, ?_⟩
    intro m hm
    simp only [metricsForDevice, List.mem_cons, List.not_mem_nil, or_false] at hm
    rcases hm with h | h | h | h | h <;> subst h <;> exact ⟨rfl, rfl⟩

/-- Witness for C8 at the worked example. -/
theorem claim8_witness :
    Update (.readable (.content ("Personalities : [raid1]\nmd0 : active raid1 sda1[0] sdb1[1]\n      1953511936 blocks [2/2] [UU]\n\nunused devices: <none>\n").data)) =
      .done (([⟨"md0".data, true, 2, 2, 1953511936, 1953511936⟩] : List mdStatus).flatMap
        metricsForDevice) none :=
  claim8.2.2.2.1 _ _ (by decide)

/-- Counterexample to claim C9 as stated: the scan does not continue from
the line after the consumed section; it advances one line at a time, so a
consumed status line that does not begin with whitespace is itself
interpreted as a device header.  Here line 2, `1 blocks [2/2] [UU]`, is
consumed as md0's status line and then parsed again as a second device
header named `1`, and the parse succeeds with two records instead of
one. -/
theorem claim9_counterexample :
    parseMdstat (.content ("md0 : active x\n1 blocks [2/2] [UU]\nunused 2 blocks [2/2] [UU]\n\n").data) =
      .ok [⟨"md0".data, true, 2, 2, 1, 1⟩, ⟨"1".data, false, 2, 2, 2, 2⟩] := by
  decide

/-- Claim C9 as amended: blank lines and lines beginning with whitespace
are skipped as non-headers; after a record is constructed the scan
continues from the immediately following line (not from past the
consumed section), so the consumed status/bitmap/build lines are skipped
only when they are blank or begin with whitespace (or carry a
`Personalities`/`unused` prefix), as they do in well-formed reports. -/
theorem claim9 :
    (∀ (l : List Char) (rest : List (List Char)) (acc : List mdStatus),
      (l = [] ∨ l.head? = some ' ') →
      parseMdstatLoop (l :: rest) acc = parseMdstatLoop rest acc) ∧
    (∀ (l : List Char) (rest : List (List Char)) (acc recs : List mdStatus),
      isHeaderLine l = true → parseMdstatLoop (l :: rest) acc = .ok recs →
      ∃ r, parseMdstatLoop rest (acc ++ [r]) = .ok recs) := by
  constructor
  · intro l rest acc h
    rcases h with rfl | hh
    · exact parseLoop_skip_empty rest acc
    · cases l with
      | nil => simp at hh
      | cons c0 cs =>
        have hc : c0 = ' ' := by simpa using hh
        subst hc
        exact parseLoop_skip_space cs rest acc
  · intro l rest acc recs hh hok
    by_cases htl : (goSplit ' ' l).length < 3
    · rw [parseLoop_mdline_err hh htl] at hok
      simp at hok
    · obtain ⟨t0, t1, t2, ts, htoks⟩ := len3_decomp htl
      by_cases hr : rest.length < 3
      · rw [parseLoop_trunc_err hh htoks hr] at hok
        simp at hok
      · obtain ⟨r0, r1, r2, rs, hrest⟩ := len3_decomp hr
        cases hev : evalStatusline r0 with
        | panic p =>
          have hnp := evalStatusline_no_panic r0
          rw [hev] at hnp
          simp [GoRes.isPanic] at hnp
        | error e =>
          rw [parseLoop_status_err hh htoks hrest hev] at hok
          simp at hok
        | ok v =>
          obtain ⟨active, total, size⟩ := v
          by_cases hsync : (goContains (if goContains r1 "bitmap".data then r2 else r1)
              "recovery".data ||
            goContains (if goContains r1 "bitmap".data then r2 else r1) "resync".data) = true
          · cases hbuild : evalBuildline (if goContains r1 "bitmap".data then r2 else r1) with
            | panic p =>
              have hnp := evalBuildline_no_panic (if goContains r1 "bitmap".data then r2 else r1)
              rw [hbuild] at hnp
              simp [GoRes.isPanic] at hnp
            | error e =>
              rw [parseLoop_build_err hh htoks hrest hev hsync hbuild] at hok
              simp at hok
            | ok sy =>
              rw [parseLoop_sync_step hh htoks hrest hev hsync hbuild] at hok
              exact ⟨_, hok⟩
          · have hsync' : (goContains (if goContains r1 "bitmap".data then r2 else r1)
                "recovery".data ||
              goContains (if goContains r1 "bitmap".data then r2 else r1) "resync".data)
                = false := by
              revert hsync
              cases goContains (if goContains r1 "bitmap".data then r2 else r1) "recovery".data ||
                goContains (if goContains r1 "bitmap".data then r2 else r1) "resync".data
              · intro _
                rfl
              · intro hx
                exact absurd rfl hx
            rw [parseLoop_nosync_step hh htoks hrest hev hsync'] at hok
            exact ⟨_, hok⟩

/-- Witness for amended C9: a whitespace-initial line is skipped, and a
header step continues with the next line in the counterexample input. -/
theorem claim9_witness :
    parseMdstatLoop [" a".data] [] = parseMdstatLoop [] [] ∧
    ∃ r, parseMdstatLoop
        ["1 blocks [2/2] [UU]".data, "unused 2 blocks [2/2] [UU]".data, [], []] ([] ++ [r]) =
      .ok [⟨"md0".data, true, 2, 2, 1, 1⟩, ⟨"1".data, false, 2, 2, 2, 2⟩] :=
  ⟨claim9.1 " a".data [] [] (Or.inr (by decide)),
   claim9.2 "md0 : active x".data
     ["1 blocks [2/2] [UU]".data, "unused 2 blocks [2/2] [UU]".data, [], []] []
     [⟨"md0".data, true, 2, 2, 1, 1⟩, ⟨"1".data, false, 2, 2, 2, 2⟩]
     (by decide) (by decide)⟩

/-- Claim C10: the regexp captures are always nonempty all-digit tokens;
`parseInt64` converts an in-range digit token exactly and fails only with
the range error when the value exceeds `2 ^ 63 - 1`; such a failure in a
status line surfaces as a conversion error naming the offending line, and
an evaluation failure of the status line aborts the whole parse. -/
theorem claim10 :
    (∀ l w a b c : List Char, statuslineSubmatch l = [w, a, b, c] →
      (a ≠ [] ∧ a.all Char.isDigit = true) ∧ (b ≠ [] ∧ b.all Char.isDigit = true) ∧
        (c ≠ [] ∧ c.all Char.isDigit = true)) ∧
    (∀ l w a : List Char, buildlineSubmatch l = [w, a] →
      a ≠ [] ∧ a.all Char.isDigit = true) ∧
    (∀ s : List Char, s ≠ [] → s.all Char.isDigit = true → natOfDigits s ≤ int64Max →
      parseInt64 s = .ok (Int.ofNat (natOfDigits s))) ∧
    (∀ s : List Char, s ≠ [] → s.all Char.isDigit = true → int64Max < natOfDigits s →
      parseInt64 s =
        .error ("strconv.ParseInt: parsing ".data ++ quoteStr s ++ ": value out of range".data)) ∧
    (∀ l w a b c : List Char, statuslineSubmatch l = [w, a, b, c] →
      int64Max < natOfDigits a →
      evalStatusline l = .error ("strconv.ParseInt: parsing ".data ++ quoteStr a ++
        ": value out of range".data ++ " in statusline: ".data ++ l)) ∧
    (∀ (l : List Char) (rest : List (List Char)) (acc : List mdStatus) (e : List Char),
      isHeaderLine l = true → ¬(goSplit ' ' l).length < 3 → ¬rest.length < 3 →
      evalStatusline (rest.getD 0 []) = .error e →
      parseMdstatLoop (l :: rest) acc =
        .err acc ("error parsing ".data ++ statusfile ++ ": ".data ++ e)) := by
  refine ⟨?_, ?_, ?_, ?_, ?_, ?_⟩
  · intro l w a b c h
    rcases statuslineSubmatch_cases l with hnil | ⟨w', a', b', c', heq, p1, p2, p3⟩
    · rw [h] at hnil
      simp at hnil
    · rw [h] at heq
      simp only [List.cons.injEq, and_true] at heq
      obtain ⟨-, ha, hb, hc⟩ := heq
      subst ha
      subst hb
      subst hc
      exact ⟨p1, p2, p3⟩
  · intro l w a h
    rcases buildlineSubmatch_cases l with hnil | ⟨w', a', heq, p1⟩
    · rw [h] at hnil
      simp at hnil
    · rw [h] at heq
      simp only [List.cons.injEq, and_true] at heq
      obtain ⟨-, ha⟩ := heq
      subst ha
      exact p1
  · intro s h1 h2 h3
    exact parseInt64_ok_digits h1 h2 h3
  · intro s h1 h2 h3
    exact parseInt64_range h1 h2 h3
  · intro l w a b c h hover
    rcases statuslineSubmatch_cases l with hnil | ⟨w', a', b', c', heq, p1, p2, p3⟩
    · rw [h] at hnil
      simp at hnil
    · rw [h] at heq
      simp only [List.cons.injEq, and_true] at heq
      obtain ⟨-, ha, hb, hc⟩ := heq
      subst ha
      subst hb
      subst hc
      have herr := parseInt64_range p1.1 p1.2 hover
      simpa [List.append_assoc] using evalStatusline_err1 h herr
  · intro l rest acc e hh htok hr he
    obtain ⟨t0, t1, t2, ts, htoks⟩ := len3_decomp htok
    obtain ⟨r0, r1, r2, rs, hrest⟩ := len3_decomp hr
    have hge : rest.getD 0 [] = r0 := by
      rw [hrest]
      rfl
    rw [hge] at he
    exact parseLoop_status_err hh htoks hrest he acc

/-- Witness for C10: a 2^63 block count overflows int64 and the status
line fails with the conversion error naming the line. -/
theorem claim10_witness :
    evalStatusline "9223372036854775808 blocks [2/2] [UU]".data =
      .error ("strconv.ParseInt: parsing ".data ++ quoteStr "9223372036854775808".data ++
        ": value out of range".data ++ " in statusline: ".data ++
        "9223372036854775808 blocks [2/2] [UU]".data) :=
  claim10.2.2.2.2.1 "9223372036854775808 blocks [2/2] [UU]".data
    "9223372036854775808 blocks [2/2] [UU]".data "9223372036854775808".data "2".data "2".data
    (by decide) (by decide)
